import Mathlib

/-!
# Verification of `Stargazer.py`

A shallow embedding of the data model and the pure computations of
`src/Stargazer.py`, together with theorems settling the specification's
claims about it.

Modelling conventions, fixed once here:

* A Python `dict` is an association list kept in insertion order.
  Assigning to an existing key replaces the value in place; assigning a
  fresh key appends at the end (`pyInsert`).  Lookup is `pyLookup`.
* The JSON-lines store is modelled at the level of parsed lines: the
  external `json` library's serialise/parse round trip is part of the
  fixed external contract, so a stored line is represented by what
  `json.loads` produces for it — `Line.blank` for a whitespace-only
  line, `Line.malformed` for a line raising `JSONDecodeError`,
  `Line.nonObject` for a line holding valid JSON whose top-level value
  is not an object (on which `obj.get` raises `AttributeError`), and
  `Line.obj o` for a JSON object.  Of an object the loader only ever
  reads the five keys `full_name, html_url, description, listed, stars`,
  so `JsonObj` records exactly those, each `Option` (absent vs present);
  field values are JSON scalars (`JVal`).  The four metadata fields are
  only stored, never inspected, so a nested array/object there behaves
  like any other present value and an opaque scalar stands in for it
  soundly (likewise a float number: hashable, truthy iff non-zero,
  stored as-is — behaviourally an integer).  `full_name` is different:
  it is used as a dict key, and Python raises an uncaught `TypeError`
  (unhashable type) when a truthy list/dict lands there, while a falsy
  one (empty list/dict) is skipped by the truthiness gate like any
  falsy value.  An object line whose `full_name` holds such an
  unhashable value is therefore its own parse-outcome case,
  `Line.objNonScalarKey`, carrying just the truthiness that decides
  between the two behaviours.
* Machine integers are `Int`/`Nat`; nothing here overflows in Python.
-/

namespace Stargazer

/-- A JSON scalar value, as produced by `json.loads` for a field. -/
inductive JVal where
  | null
  | bool (b : Bool)
  | num (n : Int)
  | str (s : String)
deriving DecidableEq

/-- Python truthiness of a JSON scalar (`if full:`):
`None`, `False`, `0` and `""` are falsy, everything else truthy. -/
def truthy : JVal → Bool
  | .null => false
  | .bool b => b
  | .num n => n != 0
  | .str s => s != ""

/-- Python truthiness of `obj.get("full_name")`: `None` (key absent) is
falsy, otherwise the value's truthiness decides. -/
def truthyOpt : Option JVal → Bool
  | none => false
  | some v => truthy v

/-- A parsed JSON object line of the store, restricted to the five keys
the program ever reads.  `none` means the key is absent. -/
structure JsonObj where
  full_name : Option JVal
  html_url : Option JVal
  description : Option JVal
  listed : Option JVal
  stars : Option JVal
deriving DecidableEq

/-- A loaded metadata record, the value stored under a key of
`self.data` by `load_data_from_jsonl`. -/
structure JRecord where
  html_url : JVal
  description : JVal
  listed : JVal
  stars : JVal
deriving DecidableEq

/-- The record `load_data_from_jsonl` builds from one object line:
`obj.get` with the defaults `"" , "", False, 0` (Stargazer.py lines 97-102). -/
def recordOfObj (o : JsonObj) : JRecord :=
  { html_url := o.html_url.getD (.str "")
    description := o.description.getD (.str "")
    listed := o.listed.getD (.bool false)
    stars := o.stars.getD (.num 0) }

/-- One line of the store, by its parse outcome (see the header
comment).  `objNonScalarKey t` is a valid JSON object line whose
`full_name` value is an unhashable array/object, `t` its truthiness. -/
inductive Line where
  | blank
  | malformed
  | nonObject
  | objNonScalarKey (truthyKey : Bool)
  | obj (o : JsonObj)
deriving DecidableEq

/-- Python `d[k] = v`: replace in place if the key exists, else append. -/
def pyInsert {K V : Type} [DecidableEq K] (d : List (K × V)) (k : K) (v : V) :
    List (K × V) :=
  match d with
  | [] => [(k, v)]
  | (k1, v1) :: rest =>
    if k1 = k then (k, v) :: rest else (k1, v1) :: pyInsert rest k v

/-- Python `d.get(k)` / `k in d`: first (unique) binding of the key. -/
def pyLookup {K V : Type} [DecidableEq K] (d : List (K × V)) (k : K) : Option V :=
  match d with
  | [] => none
  | (k1, v1) :: rest => if k1 = k then some v1 else pyLookup rest k

/-- The loop body of `load_data_from_jsonl` (Stargazer.py lines 89-104),
processing the lines in order with the accumulated dict `d`.
A whitespace-only line is skipped (`if not line: continue`), a line
raising `JSONDecodeError` is skipped (`except ... continue`), a valid
non-object line raises `AttributeError` at `obj.get` (uncaught), an
object line whose `full_name` is a truthy unhashable value raises
`TypeError` at `data[full]` (uncaught; a falsy one fails the
truthiness gate and is skipped), and any other object line is entered
into the dict iff `obj.get("full_name")` is truthy. -/
def loadAux (d : List (JVal × JRecord)) : List Line → Except String (List (JVal × JRecord))
  | [] => .ok d
  | .blank :: rest => loadAux d rest
  | .malformed :: rest => loadAux d rest
  | .nonObject :: _ => .error "AttributeError"
  | .objNonScalarKey true :: _ => .error "TypeError"
  | .objNonScalarKey false :: rest => loadAux d rest
  | .obj o :: rest =>
    match o.full_name with
    | none => loadAux d rest
    | some v => if truthy v then loadAux (pyInsert d v (recordOfObj o)) rest else loadAux d rest

/-- `Stargazer.load_data_from_jsonl` (lines 84-108): `none` models the
store file being absent (`FileNotFoundError` -> empty mapping), `some ls`
a store with lines `ls`. -/
def load_data_from_jsonl : Option (List Line) → Except String (List (JVal × JRecord))
  | none => .ok []
  | some ls => loadAux [] ls

/-- One repository item of a starred-repos API page, with the fields
`get_all_starred` reads.  `description` is nullable in the API. -/
structure FetchedRepo where
  full_name : String
  html_url : String
  description : Option String
  stars : Int
deriving DecidableEq

/-- Python `x or dflt` for a nullable string `x`. -/
def pyOr (x : Option String) (dflt : String) : String :=
  match x with
  | none => dflt
  | some s => if s = "" then dflt else s

/-- The entry `get_all_starred` writes for one repository
(Stargazer.py lines 66-72): all five keys present, `listed` false,
`description` normalised by `or ""`. -/
def entryOf (r : FetchedRepo) : JsonObj :=
  { full_name := some (.str r.full_name)
    html_url := some (.str r.html_url)
    description := some (.str (pyOr r.description ""))
    listed := some (.bool false)
    stars := some (.num r.stars) }

/-- The store contents produced by `get_all_starred` for the fetched
repositories `rs`: one object line per repository, in fetch order
(lines 58-73; the file is truncated first, so these are all the lines). -/
def get_all_starred_lines (rs : List FetchedRepo) : List Line :=
  rs.map (fun r => .obj (entryOf r))

/-- Spec-side definition for the round-trip claim: "the same mapping
keyed by full_name, with each field equal to the persisted value" —
the dict built from the records in order, keyed by `full_name`, with
exactly the persisted field values. -/
def persistedRecord (r : FetchedRepo) : JRecord :=
  { html_url := .str r.html_url
    description := .str (pyOr r.description "")
    listed := .bool false
    stars := .num r.stars }

/-- Spec-side definition: the mapping keyed by `full_name` holding the
persisted fields of each record. -/
def persistedDict (rs : List FetchedRepo) : List (JVal × JRecord) :=
  rs.foldl (fun d r => pyInsert d (.str r.full_name) (persistedRecord r)) []

/-! ## Renderer data model

`generate_readme` runs on data loaded from a store that was written by
`get_all_starred`, so its records are well-typed: string fields hold
strings, `listed` a boolean, and `stars` the non-negative
`stargazers_count`.  The renderer model therefore uses a typed record. -/

/-- A loaded repository record as the renderer sees it. -/
structure Repo where
  html_url : String
  description : String
  listed : Bool
  stars : Nat
deriving DecidableEq

/-- The in-memory state `generate_readme` reads: `star_lists` is the
discovery-ordered list of (list_url, list_name) pairs from `get_lists`,
`star_list_repos` maps a list_url to its scraped (user, repo) pairs in
scan order, `data` is the loaded mapping in insertion order, and
`sort_by` is the configured sort mode. -/
structure StarState where
  star_lists : List (String × String)
  star_list_repos : List (String × List (String × String))
  data : List (String × Repo)
  sort_by : String
deriving DecidableEq

/-- Python `d.get(k, dflt)`. -/
def pyGetD {K V : Type} [DecidableEq K] (d : List (K × V)) (k : K) (dflt : V) : V :=
  (pyLookup d k).getD dflt

/-- The key `f"{user}/{repo}"`. -/
def repoKey (u r : String) : String := u ++ "/" ++ r

/-- The list-comprehension of Stargazer.py lines 168-172: the (key,
record) pairs of one category, in scrape order, keeping only keys
present in `self.data`. -/
def categoryRepos (st : StarState) (list_url : String) : List (String × Repo) :=
  (pyGetD st.star_list_repos list_url []).filterMap
    (fun ur => (pyLookup st.data (repoKey ur.1 ur.2)).map
      (fun rec => (repoKey ur.1 ur.2, rec)))

/-- `sorted(repos, key=lambda x: x[1]["stars"], reverse=True)` is
Python's stable sort, descending by star count and keeping the original
order of ties.  A stable sort's output is uniquely determined by the
comparator "a comes no later than b", which for this call is
`b.stars ≤ a.stars`; `List.insertionSort` is stable for exactly that
comparator, so it computes the same list. -/
def sortedRepos (st : StarState) (list_url : String) : List (String × Repo) :=
  if st.sort_by = "stars" then
    (categoryRepos st list_url).insertionSort (fun a b => b.2.stars ≤ a.2.stars)
  else
    (categoryRepos st list_url).reverse

/-- The keys whose records get `repo["listed"] = True` during the
category loop (line 184): every key emitted in some category table. -/
def claimedKeys (st : StarState) : List String :=
  (st.star_lists.map (fun c => (sortedRepos st c.1).map Prod.fst)).flatten

/-- The cumulative effect on `self.data` of the `repo["listed"] = True`
assignments of the category loop: every claimed key's record has
`listed` set to true; keys, order and all other fields are unchanged. -/
def flipData (st : StarState) : List (String × Repo) :=
  st.data.map (fun kr =>
    (kr.1, if kr.1 ∈ claimedKeys st then { kr.2 with listed := true } else kr.2))

/-- `self.data[x]["stars"]` for a key of the dict (the `none` branch is
unreachable in the program: the keys it is applied to come from the
dict itself). -/
def starsOfKey (d : List (String × Repo)) (k : String) : Nat :=
  match pyLookup d k with
  | some r => r.stars
  | none => 0

/-- `self.data[k]["description"]`, same convention as `starsOfKey`. -/
def descrOfKey (d : List (String × Repo)) (k : String) : String :=
  match pyLookup d k with
  | some r => r.description
  | none => ""

/-- Stargazer.py lines 190-198: the keys of the uncategorized table, in
emission order.  The comprehension runs over `self.data` after the
category loop's `listed` flips, i.e. over `flipData st`. -/
def unlistedKeys (st : StarState) : List String :=
  let d := flipData st
  let ks := (d.filter (fun kr => !kr.2.listed)).map Prod.fst
  if st.sort_by = "stars" then
    ks.insertionSort (fun a b => starsOfKey d b ≤ starsOfKey d a)
  else
    ks.reverse

/-! ## String primitives of the renderer -/

/-- The whitespace class of Python's `str.strip` / `\s`, restricted to
ASCII (the program's own text is ASCII; Unicode spaces would be handled
identically by widening this predicate). -/
def isPySpace (c : Char) : Bool :=
  (c == ' ') || (c == '\t') || (c == '\n') || (c == '\r') || (c == '\x0B') || (c == '\x0C')

/-- Python `str.lstrip()`. -/
def pyLStrip (s : String) : String := ⟨s.data.dropWhile isPySpace⟩

/-- Python `str.rstrip()`. -/
def pyRStrip (s : String) : String := ⟨(s.data.reverse.dropWhile isPySpace).reverse⟩

/-- Python `str.strip()`: both ends. -/
def pyStrip (s : String) : String := pyRStrip (pyLStrip s)

/-- Scan of Python `str.replace(old, new)` for a non-empty `old`
(`o :: os`): the leftmost match is replaced and scanning resumes after
it, so matches never overlap.  On a match the scan consumes the head
character and drops the rest of the pattern from the tail; the `fuel`
argument (always called with the length of the scanned list, which
bounds every suffix the scan reaches) makes the recursion structural,
so that the function reduces inside the kernel; the `0, _ :: _` branch
is unreachable. -/
def replaceAllAux (o : Char) (os newc : List Char) : Nat → List Char → List Char
  | _, [] => []
  | 0, l => l
  | fuel + 1, c :: rest =>
    if (o :: os).isPrefixOf (c :: rest) then
      newc ++ replaceAllAux o os newc fuel (rest.drop os.length)
    else
      c :: replaceAllAux o os newc fuel rest

/-- Python `s.replace(old, new)`.  For an empty `old` Python inserts
`new` before every character and at the end. -/
def py_replace (s old new : String) : String :=
  match old.data with
  | [] => ⟨new.data ++ s.data.foldr (fun c acc => c :: (new.data ++ acc)) []⟩
  | o :: os => ⟨replaceAllAux o os new.data s.data.length s.data⟩

/-- The number of (non-overlapping, leftmost-first) occurrences of the
pattern `o :: os`, by the same fuelled scan as `replaceAllAux`. -/
def countOccAux (o : Char) (os : List Char) : Nat → List Char → Nat
  | _, [] => 0
  | 0, _ => 0
  | fuel + 1, c :: rest =>
    if (o :: os).isPrefixOf (c :: rest) then
      countOccAux o os fuel (rest.drop os.length) + 1
    else
      countOccAux o os fuel rest

/-- Python `s.count(pat)` (used to say "the template contains exactly
one placeholder token"); `s.count("")` is `len(s) + 1`. -/
def py_count (s pat : String) : Nat :=
  match pat.data with
  | [] => s.data.length + 1
  | o :: os => countOccAux o os s.data.length s.data

/-! ## Slugs and the table of contents -/

/-- The `\w` class of Python's `re`, restricted to ASCII like
`isPySpace` (the default Unicode `\w` widens it the same way on both
sides of every claim using it). -/
def isWordChar (c : Char) : Bool := c.isAlphanum || c == '_'

/-- ASCII `str.lower()`. -/
def pyLower (s : String) : String := ⟨s.data.map Char.toLower⟩

/-- `re.sub(r"\s+", "-", slug)`: each maximal whitespace run becomes
one hyphen.  `inRun` records whether the previous character was
whitespace, so a run emits a single `-` at its first character. -/
def collapseWsAux (inRun : Bool) : List Char → List Char
  | [] => []
  | c :: rest =>
    if isPySpace c then
      (if inRun then [] else ['-']) ++ collapseWsAux true rest
    else
      c :: collapseWsAux false rest

/-- `re.sub(r"\s+", "-", slug)` on a character list. -/
def collapseWs (l : List Char) : List Char := collapseWsAux false l

/-- `Stargazer.slugify` (lines 239-243). -/
def slugify (text : String) : String :=
  let slug := pyLower (pyStrip text)
  let slug : String := ⟨slug.data.filter (fun c => isWordChar c || isPySpace c || c == '-')⟩
  let slug : String := ⟨collapseWs slug.data⟩
  if slug = "" then "section" else slug

/-- The (section, unique_slug) pairs produced by the loop of
`build_toc` (lines 230-235), threading the `anchors` dict. -/
def tocEntriesAux (anchors : List (String × Nat)) : List String → List (String × String)
  | [] => []
  | sec :: rest =>
    let slug := slugify sec
    let count := pyGetD anchors slug 0
    let unique := if count = 0 then slug else slug ++ "-" ++ toString count
    (sec, unique) :: tocEntriesAux (pyInsert anchors slug (count + 1)) rest

/-- The TOC entries for a cleaned section list, from an empty `anchors`
dict. -/
def toc_entries (sections : List String) : List (String × String) :=
  tocEntriesAux [] sections

/-- Python `"\n".join`. -/
def join_nl : List String → String
  | [] => ""
  | [s] => s
  | s :: s2 :: rest => s ++ "\n" ++ join_nl (s2 :: rest)

/-- `Stargazer.build_toc` (lines 224-237). -/
def build_toc (sections : List String) : String :=
  let cleaned := sections.filter (fun s => s != "")
  if cleaned = [] then ""
  else
    join_nl (["## TOC", ""] ++
      (toc_entries cleaned).map (fun e => "- [" ++ e.1 ++ "](#" ++ e.2 ++ ")") ++ [""])

/-! ## Table rendering -/

/-- Concatenation of text chunks (the `text +=` accumulation). -/
def concatS : List String → String
  | [] => ""
  | s :: rest => s ++ concatS rest

/-- One data row (lines 186 and 209): link built from the key, pipes in
the description escaped, star count after the glyph. -/
def rowText (k descr : String) (stars : Nat) : String :=
  "| [" ++ k ++ "](https://github.com/" ++ k ++ ") | " ++
    py_replace descr "|" "\\|" ++ " | ⭐" ++ toString stars ++ " |\n"

/-- The `## name` heading plus the fixed table header (lines 180-182
and 200-202). -/
def tableHeader (name : String) : String :=
  "## " ++ name ++ "\n\n| Repository | Description | Stars |\n|----------|------|-------|\n"

/-- The text of one category table (lines 180-187).  The loop body also
performs the `repo["listed"] = True` flips; they touch only the
`listed` field, which no emitted text reads, and their cumulative
effect is `flipData`. -/
def categoryText (st : StarState) (c : String × String) : String :=
  tableHeader c.2 ++
    concatS ((sortedRepos st c.1).map (fun kr => rowText kr.1 kr.2.description kr.2.stars)) ++
    "\n"

/-- The uncategorized table (lines 200-211), computed over the data
dict as left by the category loop (`flipData st`); an empty key list
yields the placeholder row. -/
def uncategorizedText (st : StarState) : String :=
  let d := flipData st
  let keys := unlistedKeys st
  tableHeader "Uncategorized Repositories" ++
    (if keys = [] then "| *All repositories are categorized* | | |\n"
     else concatS (keys.map (fun k => rowText k (descrOfKey d k) (starsOfKey d k)))) ++
    "\n"

/-- `sections` of line 161-162: category names plus the trailing
uncategorized title. -/
def sectionsOf (st : StarState) : List String :=
  st.star_lists.map Prod.snd ++ ["Uncategorized Repositories"]

/-- The full generated content `text` at line 215: category tables,
uncategorized table, TOC prepended when non-empty. -/
def generate_text (st : StarState) : String :=
  let body := concatS (st.star_lists.map (fun c => categoryText st c)) ++ uncategorizedText st
  let toc := build_toc (sectionsOf st)
  if toc = "" then body else toc ++ body

/-- `Stargazer.generate_readme` (lines 160-222): returns the text
written to the output file for the given template contents, and the
state as the run leaves it (the `listed` flips applied). -/
def generate_readme (st : StarState) (template : String) : String × StarState :=
  (py_replace template "[[GENERATE HERE]]" (pyStrip (generate_text st)),
   { st with data := flipData st })

/-- Observation used by the partition claims: the rendered tables, each
as its title plus the keys of its emitted data rows in order.  The
k-th entry corresponds 1:1 to the k-th table of `generate_text`
(compare `categoryText` and `uncategorizedText`). -/
def tables (st : StarState) : List (String × List String) :=
  st.star_lists.map (fun c => (c.2, (sortedRepos st c.1).map Prod.fst)) ++
    [("Uncategorized Repositories", unlistedKeys st)]

/-- The keys a category's membership list mentions, in scrape order
(before the join against `self.data`). -/
def memKeys (st : StarState) (list_url : String) : List String :=
  (pyGetD st.star_list_repos list_url []).map (fun ur => repoKey ur.1 ur.2)

/-! ## Observation helpers used in claim statements -/

/-- Whether a store line parsed to a JSON object. -/
def isObjLine : Line → Bool
  | .obj _ => true
  | _ => false

/-- The record a single line would contribute under the key `v`:
`some` exactly for an object line whose `full_name` is the truthy value
`v`. -/
def lineRecordFor (v : JVal) : Line → Option JRecord
  | .obj o =>
    match o.full_name with
    | some w => if truthy w then (if w = v then some (recordOfObj o) else none) else none
    | none => none
  | _ => none

/-- The record of the last line of the store contributing to key `v`
(later lines win). -/
def lastRecord (ls : List Line) (v : JVal) : Option JRecord :=
  match ls with
  | [] => none
  | l :: rest =>
    match lastRecord rest v with
    | some r => some r
    | none => lineRecordFor v l

/-! ## Concrete instances for witnesses and counterexamples -/

/-- Two well-formed fetched repositories. -/
def rsC3 : List FetchedRepo :=
  [{ full_name := "a/b", html_url := "https://github.com/a/b", description := some "d1", stars := 3 },
   { full_name := "c/d", html_url := "https://github.com/c/d", description := none, stars := 5 }]

/-- A fetched repository with an empty `full_name`. -/
def rC3bad : FetchedRepo :=
  { full_name := "", html_url := "https://github.com/x", description := some "d", stars := 5 }

/-- An object line with only a `full_name`. -/
def oC10 : JsonObj :=
  { full_name := some (.str "k"), html_url := none, description := none,
    listed := none, stars := none }

/-- An object line whose `full_name` is present but falsy. -/
def oC10f : JsonObj :=
  { full_name := some (.str ""), html_url := some (.str "u"), description := none,
    listed := none, stars := none }

/-- Two object lines with the same truthy `full_name` and different
fields. -/
def lsC9 : List Line :=
  [.obj { full_name := some (.str "k"), html_url := some (.str "u1"),
          description := some (.str "d1"), listed := some (.bool false),
          stars := some (.num 1) },
   .obj { full_name := some (.str "k"), html_url := some (.str "u2"),
          description := some (.str "d2"), listed := some (.bool true),
          stars := some (.num 2) }]

/-- A store mixing skippable lines with one good object line. -/
def lsC5 : List Line := [.blank, .malformed, .obj oC10]

/-- A record used by the renderer examples. -/
def repoAB : Repo :=
  { html_url := "https://github.com/a/b", description := "x|y", listed := false, stars := 10 }

/-- The end-to-end example state of the spec: the single mapping entry
`"a/b" -> {stars: 10, description: "x|y", listed: false}` and no
categories. -/
def stC7 : StarState :=
  { star_lists := [], star_list_repos := [], data := [("a/b", repoAB)], sort_by := "stars" }

/-- Two categories whose membership lists share the repository `a/b`. -/
def stC1cex : StarState :=
  { star_lists := [("l1", "A"), ("l2", "B")]
    star_list_repos := [("l1", [("a", "b")]), ("l2", [("a", "b")])]
    data := [("a/b", repoAB)]
    sort_by := "stars" }

/-- A small state with one category claiming `a/b` and an uncategorized
`c/d`, in "stars" mode. -/
def stW : StarState :=
  { star_lists := [("l1", "Tools")]
    star_list_repos := [("l1", [("a", "b")])]
    data := [("a/b", repoAB),
             ("c/d", { html_url := "https://github.com/c/d", description := "d2",
                       listed := false, stars := 4 })]
    sort_by := "stars" }

/-- The same state in a non-"stars" sort mode. -/
def stW2 : StarState := { stW with sort_by := "recent" }

/-- A template with exactly one placeholder token. -/
def tplW : String := "# My Stars\n\n[[GENERATE HERE]]\n"

/-! ## Basic dictionary lemmas -/

theorem pyLookup_pyInsert_self {K V : Type} [DecidableEq K]
    (d : List (K × V)) (k : K) (v : V) :
    pyLookup (pyInsert d k v) k = some v := by
  induction d with
  | nil => simp [pyInsert, pyLookup]
  | cons p rest ih =>
    obtain ⟨k1, v1⟩ := p
    by_cases h : k1 = k
    · simp [pyInsert, h, pyLookup]
    · simp [pyInsert, h, pyLookup, ih]

theorem pyLookup_pyInsert_ne {K V : Type} [DecidableEq K]
    (d : List (K × V)) (k k1 : K) (v : V) (h : k ≠ k1) :
    pyLookup (pyInsert d k v) k1 = pyLookup d k1 := by
  induction d with
  | nil => simp [pyInsert, pyLookup, h]
  | cons p rest ih =>
    obtain ⟨k2, v2⟩ := p
    by_cases h2 : k2 = k
    · subst h2
      simp [pyInsert, pyLookup, h]
    · simp only [pyInsert, if_neg h2]
      by_cases h3 : k2 = k1
      · simp [pyLookup, h3]
      · simp [pyLookup, h3, ih]

/-! ## Loader lemmas -/

theorem loadAux_append (ls ms : List Line) (d : List (JVal × JRecord)) :
    loadAux d (ls ++ ms) = (loadAux d ls).bind (fun d1 => loadAux d1 ms) := by
  induction ls generalizing d with
  | nil => simp [loadAux, Except.bind]
  | cons l rest ih =>
    cases l with
    | blank => simpa [loadAux] using ih d
    | malformed => simpa [loadAux] using ih d
    | nonObject => simp [loadAux, Except.bind]
    | objNonScalarKey t =>
      cases t with
      | false => simpa [loadAux] using ih d
      | true => simp [loadAux, Except.bind]
    | obj o =>
      cases h : o.full_name with
      | none => simpa [loadAux, h] using ih d
      | some v =>
        by_cases hv : truthy v = true
        · simpa [loadAux, h, hv] using ih (pyInsert d v (recordOfObj o))
        · simpa [loadAux, h, hv] using ih d

theorem loadAux_writer (rs : List FetchedRepo) (d : List (JVal × JRecord))
    (h : ∀ r ∈ rs, r.full_name ≠ "") :
    loadAux d (get_all_starred_lines rs) =
      .ok (rs.foldl (fun d1 r => pyInsert d1 (.str r.full_name) (persistedRecord r)) d) := by
  induction rs generalizing d with
  | nil => simp [get_all_starred_lines, loadAux]
  | cons r rest ih =>
    have hr : r.full_name ≠ "" := h r (by simp)
    have htr : truthy (JVal.str r.full_name) = true := by
      simp [truthy, hr]
    have hrec : recordOfObj (entryOf r) = persistedRecord r := rfl
    simp only [get_all_starred_lines, List.map_cons, loadAux, entryOf, htr, if_pos, hrec,
      List.foldl_cons]
    exact ih _ (fun r2 h2 => h r2 (by simp [h2]))

/-- **C3** (amended): writing the records fetched by `get_all_starred`
to the store and loading it back with `load_data_from_jsonl` yields
exactly the mapping keyed by `full_name` whose fields are the persisted
values (`listed` loads as the persisted `false`), provided every
record's `full_name` is non-empty. -/
theorem c3_roundtrip_store (rs : List FetchedRepo) (h : ∀ r ∈ rs, r.full_name ≠ "") :
    load_data_from_jsonl (some (get_all_starred_lines rs)) = .ok (persistedDict rs) := by
  simpa [load_data_from_jsonl, persistedDict] using loadAux_writer rs [] h

/-- Witness for C3 at two concrete records. -/
theorem c3_roundtrip_store_witness :
    (∀ r ∈ rsC3, r.full_name ≠ "") ∧
      load_data_from_jsonl (some (get_all_starred_lines rsC3)) = .ok (persistedDict rsC3) :=
  ⟨by decide, c3_roundtrip_store rsC3 (by decide)⟩

/-- **C3 counterexample**: a record whose `full_name` is the empty
string is written to the store but silently dropped by the loader
(`if full:` is false), so the loaded mapping is not the mapping keyed
by `full_name`. -/
theorem c3_roundtrip_counterexample :
    load_data_from_jsonl (some (get_all_starred_lines [rC3bad])) ≠
      .ok (persistedDict [rC3bad]) := by
  intro h
  have hl : load_data_from_jsonl (some (get_all_starred_lines [rC3bad])) =
      .ok ([] : List (JVal × JRecord)) := rfl
  rw [hl] at h
  exact absurd (Except.ok.inj h) (by decide)

theorem loadAux_ok_of_no_error (ls : List Line) (d : List (JVal × JRecord))
    (h : Line.nonObject ∉ ls) (h2 : Line.objNonScalarKey true ∉ ls) :
    ∃ dd, loadAux d ls = .ok dd := by
  induction ls generalizing d with
  | nil => exact ⟨d, rfl⟩
  | cons l rest ih =>
    have hr : Line.nonObject ∉ rest := fun hm => h (List.mem_cons_of_mem _ hm)
    have hr2 : Line.objNonScalarKey true ∉ rest := fun hm => h2 (List.mem_cons_of_mem _ hm)
    cases l with
    | blank => simpa [loadAux] using ih d hr hr2
    | malformed => simpa [loadAux] using ih d hr hr2
    | nonObject => exact absurd (List.mem_cons_self _ _) h
    | objNonScalarKey t =>
      cases t with
      | false => simpa [loadAux] using ih d hr hr2
      | true => exact absurd (List.mem_cons_self _ _) h2
    | obj o =>
      cases ho : o.full_name with
      | none => simpa [loadAux, ho] using ih d hr hr2
      | some v =>
        by_cases hv : truthy v = true
        · simpa [loadAux, ho, hv] using ih (pyInsert d v (recordOfObj o)) hr hr2
        · simpa [loadAux, ho, hv] using ih d hr hr2

theorem loadAux_filter_objs (ls : List Line) (d : List (JVal × JRecord))
    (h : Line.nonObject ∉ ls) (h2 : Line.objNonScalarKey true ∉ ls) :
    loadAux d ls = loadAux d (ls.filter isObjLine) := by
  induction ls generalizing d with
  | nil => rfl
  | cons l rest ih =>
    have hr : Line.nonObject ∉ rest := fun hm => h (List.mem_cons_of_mem _ hm)
    have hr2 : Line.objNonScalarKey true ∉ rest := fun hm => h2 (List.mem_cons_of_mem _ hm)
    cases l with
    | blank => simpa [loadAux, isObjLine, List.filter_cons] using ih d hr hr2
    | malformed => simpa [loadAux, isObjLine, List.filter_cons] using ih d hr hr2
    | nonObject => exact absurd (List.mem_cons_self _ _) h
    | objNonScalarKey t =>
      cases t with
      | false => simpa [loadAux, isObjLine, List.filter_cons] using ih d hr hr2
      | true => exact absurd (List.mem_cons_self _ _) h2
    | obj o =>
      cases ho : o.full_name with
      | none =>
        simpa [loadAux, isObjLine, List.filter_cons, ho] using ih d hr hr2
      | some v =>
        by_cases hv : truthy v = true
        · simpa [loadAux, isObjLine, List.filter_cons, ho, hv]
            using ih (pyInsert d v (recordOfObj o)) hr hr2
        · simpa [loadAux, isObjLine, List.filter_cons, ho, hv] using ih d hr hr2

/-- **C5** (amended): provided no store line holds valid JSON whose
top-level value is not an object, and no object line's `full_name`
holds a truthy unhashable (array/object) value, the loader cannot
fail: it yields a mapping, every line that is not a loadable JSON
object is skipped without affecting the remaining lines, and a missing
store file yields the empty mapping. -/
theorem c5_loader_total (ls : List Line) (h1 : Line.nonObject ∉ ls)
    (h2 : Line.objNonScalarKey true ∉ ls) :
    (∃ dd, load_data_from_jsonl (some ls) = .ok dd) ∧
      load_data_from_jsonl (some ls) = load_data_from_jsonl (some (ls.filter isObjLine)) ∧
      load_data_from_jsonl none = .ok [] :=
  ⟨loadAux_ok_of_no_error ls [] h1 h2, loadAux_filter_objs ls [] h1 h2, rfl⟩

/-- Witness for C5 at a concrete store with a blank and a malformed
line. -/
theorem c5_loader_total_witness :
    (Line.nonObject ∉ lsC5 ∧ Line.objNonScalarKey true ∉ lsC5) ∧
      ((∃ dd, load_data_from_jsonl (some lsC5) = .ok dd) ∧
        load_data_from_jsonl (some lsC5) =
          load_data_from_jsonl (some (lsC5.filter isObjLine)) ∧
        load_data_from_jsonl none = .ok []) :=
  ⟨⟨by decide, by decide⟩, c5_loader_total lsC5 (by decide) (by decide)⟩

/-- The second failure path the C5 amendment must exclude: a valid
object line such as `{"full_name": [1]}` passes the truthiness gate
and then raises an uncaught `TypeError` when the unhashable value is
used as the dict key at `data[full]`. -/
theorem load_error_on_unhashable_key :
    load_data_from_jsonl (some [Line.objNonScalarKey true]) = .error "TypeError" := rfl

/-- **C5 counterexample**: the store line `5` is valid JSON, so it is
not skipped as malformed, and `obj.get("full_name")` raises
`AttributeError`: the loader does fail on this store content. -/
theorem c5_counterexample :
    load_data_from_jsonl (some [Line.nonObject]) = .error "AttributeError" := rfl

theorem lastRecord_cons_of_none (v : JVal) (l : Line) (rest : List Line)
    (h : lineRecordFor v l = none) :
    lastRecord (l :: rest) v = lastRecord rest v := by
  show (match lastRecord rest v with
        | some r => some r
        | none => lineRecordFor v l) = lastRecord rest v
  cases lastRecord rest v with
  | some r => rfl
  | none => simpa using h

theorem loadAux_lookup_last (v : JVal) (hv : truthy v = true) :
    ∀ (ls : List Line) (d dd : List (JVal × JRecord)), loadAux d ls = .ok dd →
      pyLookup dd v =
        (match lastRecord ls v with
         | some r => some r
         | none => pyLookup d v) := by
  intro ls
  induction ls with
  | nil =>
    intro d dd hok
    cases hok
    rfl
  | cons l rest ih =>
    intro d dd hok
    cases l with
    | blank =>
      rw [lastRecord_cons_of_none v Line.blank rest rfl]
      exact ih d dd (by simpa [loadAux] using hok)
    | malformed =>
      rw [lastRecord_cons_of_none v Line.malformed rest rfl]
      exact ih d dd (by simpa [loadAux] using hok)
    | nonObject => simp [loadAux] at hok
    | objNonScalarKey t =>
      cases t with
      | false =>
        rw [lastRecord_cons_of_none v (Line.objNonScalarKey false) rest rfl]
        exact ih d dd (by simpa [loadAux] using hok)
      | true => simp [loadAux] at hok
    | obj o =>
      cases ho : o.full_name with
      | none =>
        rw [lastRecord_cons_of_none v (Line.obj o) rest (by simp [lineRecordFor, ho])]
        exact ih d dd (by simpa [loadAux, ho] using hok)
      | some w =>
        by_cases hw : truthy w = true
        · have hok2 : loadAux (pyInsert d w (recordOfObj o)) rest = .ok dd := by
            simpa [loadAux, ho, hw] using hok
          have := ih (pyInsert d w (recordOfObj o)) dd hok2
          rw [this]
          cases hlast : lastRecord rest v with
          | some r => simp [lastRecord, hlast]
          | none =>
            by_cases hwv : w = v
            · subst hwv
              simp [lastRecord, hlast, lineRecordFor, ho, hw,
                pyLookup_pyInsert_self]
            · simp [lastRecord, hlast, lineRecordFor, ho, hw, hwv,
                pyLookup_pyInsert_ne d w v (recordOfObj o) hwv]
        · rw [lastRecord_cons_of_none v (Line.obj o) rest (by simp [lineRecordFor, ho, hw])]
          exact ih d dd (by simpa [loadAux, ho, hw] using hok)

/-- **C9**: duplicate keys in the store resolve to the last line in
file order — for any store that loads successfully and any truthy key
value, the loaded mapping's entry for that key is the record of the
last object line carrying that `full_name` (and absent when no line
does); earlier duplicates are silently overwritten, never merged. -/
theorem c9_last_line_wins (ls : List Line) (dd : List (JVal × JRecord)) (v : JVal)
    (hv : truthy v = true) (h : load_data_from_jsonl (some ls) = .ok dd) :
    pyLookup dd v = lastRecord ls v := by
  have := loadAux_lookup_last v hv ls [] dd (by simpa [load_data_from_jsonl] using h)
  rw [this]
  cases hlast : lastRecord ls v with
  | some r => rfl
  | none => rfl

/-- Witness for C9 at a concrete two-line store with a duplicated key:
the loaded record is the second line's. -/
theorem c9_last_line_wins_witness :
    truthy (JVal.str "k") = true ∧
      load_data_from_jsonl (some lsC9) =
        .ok [(JVal.str "k",
              { html_url := .str "u2", description := .str "d2",
                listed := .bool true, stars := .num 2 })] ∧
      pyLookup [(JVal.str "k",
              ({ html_url := .str "u2", description := .str "d2",
                 listed := .bool true, stars := .num 2 } : JRecord))] (JVal.str "k") =
        lastRecord lsC9 (JVal.str "k") :=
  ⟨by decide, rfl, c9_last_line_wins lsC9 _ (JVal.str "k") (by decide) rfl⟩

/-- **C10**: an object line enters the mapping only when its
`full_name` is truthy — a falsy or absent `full_name` leaves the loaded
mapping unchanged wherever the line sits — and a single-line store
shows the defaults for absent fields: `html_url` and `description`
default to `""`, `listed` to `false`, `stars` to `0`. -/
theorem c10_truthy_gate_defaults (ls ms : List Line) (o : JsonObj) :
    (truthyOpt o.full_name = false →
      load_data_from_jsonl (some (ls ++ Line.obj o :: ms)) =
        load_data_from_jsonl (some (ls ++ ms))) ∧
    (∀ v, o.full_name = some v → truthy v = true →
      load_data_from_jsonl (some [Line.obj o]) =
        .ok [(v, { html_url := o.html_url.getD (.str "")
                   description := o.description.getD (.str "")
                   listed := o.listed.getD (.bool false)
                   stars := o.stars.getD (.num 0) })]) := by
  constructor
  · intro hfalsy
    have hstep : ∀ d1, loadAux d1 (Line.obj o :: ms) = loadAux d1 ms := by
      intro d1
      cases ho : o.full_name with
      | none => simp [loadAux, ho]
      | some v =>
        have hv : truthy v = false := by simpa [truthyOpt, ho] using hfalsy
        simp [loadAux, ho, hv]
    simp only [load_data_from_jsonl, loadAux_append]
    cases loadAux [] ls with
    | error e => rfl
    | ok d1 => simpa [Except.bind] using hstep d1
  · intro v ho hv
    simp [load_data_from_jsonl, loadAux, ho, hv, pyInsert, recordOfObj]

/-- Witness for C10: a falsy-named line between two skippable lines
changes nothing, and a line with only a truthy `full_name` loads with
all four defaults. -/
theorem c10_truthy_gate_defaults_witness :
    (truthyOpt oC10f.full_name = false ∧
      load_data_from_jsonl (some ([Line.malformed] ++ Line.obj oC10f :: [Line.blank])) =
        load_data_from_jsonl (some ([Line.malformed] ++ [Line.blank]))) ∧
    (load_data_from_jsonl (some [Line.obj oC10]) =
      .ok [(JVal.str "k",
            { html_url := oC10.html_url.getD (.str "")
              description := oC10.description.getD (.str "")
              listed := oC10.listed.getD (.bool false)
              stars := oC10.stars.getD (.num 0) })]) :=
  ⟨⟨by decide,
    (c10_truthy_gate_defaults [Line.malformed] [Line.blank] oC10f).1 (by decide)⟩,
   (c10_truthy_gate_defaults [] [] oC10).2 (JVal.str "k") rfl (by decide)⟩

/-! ## Slug and rendering example claims -/

set_option maxRecDepth 4000 in
/-- **C4**: for the category names `["Go", "go", "Go"]` the TOC anchors
are `go`, `go-1`, `go-2` in encounter order — the slug of each name is
its trimmed, lowercased, stripped, whitespace-collapsed form, and
collisions append `-1`, `-2`, …. -/
theorem c4_slug_collision :
    (toc_entries ["Go", "go", "Go"]).map Prod.snd = ["go", "go-1", "go-2"] ∧
      build_toc ["Go", "go", "Go"] =
        "## TOC\n\n- [Go](#go)\n- [go](#go-1)\n- [Go](#go-2)\n" :=
  ⟨by decide, by decide⟩

set_option maxRecDepth 10000 in
/-- **C7**: on the mapping `{"a/b" -> {stars: 10, description: "x|y",
listed: false}}` with no categories, the generated document is the TOC
followed by an "Uncategorized Repositories" table whose single data row
is exactly `| [a/b](https://github.com/a/b) | x\|y | ⭐10 |` — pipe
escaped, repository rendered as a link, star count after the glyph. -/
theorem c7_end_to_end_example :
    generate_text stC7 =
      "## TOC\n\n- [Uncategorized Repositories](#uncategorized-repositories)\n" ++
        "## Uncategorized Repositories\n\n| Repository | Description | Stars |\n|----------|------|-------|\n" ++
        "| [a/b](https://github.com/a/b) | x\\|y | ⭐10 |\n" ++ "\n" := by
  decide

/-! ## Sorting (C2) -/

/-- **C2**: in "stars" mode every rendered table (each category table
and the uncategorized table) emits its rows with non-increasing star
counts; in any other mode a category table emits exactly the reverse of
its repositories' scrape order, and the uncategorized table exactly the
reverse of its keys' mapping order. -/
theorem c2_sorting (st : StarState) (c : String × String) (_hc : c ∈ st.star_lists) :
    (st.sort_by = "stars" →
      (sortedRepos st c.1).Pairwise (fun a b => b.2.stars ≤ a.2.stars) ∧
      (unlistedKeys st).Pairwise
        (fun k1 k2 => starsOfKey (flipData st) k2 ≤ starsOfKey (flipData st) k1)) ∧
    (st.sort_by ≠ "stars" →
      sortedRepos st c.1 =
        ((pyGetD st.star_list_repos c.1 []).reverse).filterMap
          (fun ur => (pyLookup st.data (repoKey ur.1 ur.2)).map
            (fun rec => (repoKey ur.1 ur.2, rec))) ∧
      unlistedKeys st =
        (((flipData st).reverse).filter (fun kr => !kr.2.listed)).map Prod.fst) := by
  constructor
  · intro hs
    constructor
    · rw [sortedRepos, if_pos hs]
      haveI : IsTotal (String × Repo) (fun a b => b.2.stars ≤ a.2.stars) :=
        ⟨fun a b => Nat.le_total b.2.stars a.2.stars⟩
      haveI : IsTrans (String × Repo) (fun a b => b.2.stars ≤ a.2.stars) :=
        ⟨fun _ _ _ hab hbc => Nat.le_trans hbc hab⟩
      exact List.sorted_insertionSort _ _
    · rw [unlistedKeys]
      simp only [if_pos hs]
      haveI : IsTotal String
          (fun k1 k2 => starsOfKey (flipData st) k2 ≤ starsOfKey (flipData st) k1) :=
        ⟨fun a b => Nat.le_total (starsOfKey (flipData st) b) (starsOfKey (flipData st) a)⟩
      haveI : IsTrans String
          (fun k1 k2 => starsOfKey (flipData st) k2 ≤ starsOfKey (flipData st) k1) :=
        ⟨fun _ _ _ hab hbc => Nat.le_trans hbc hab⟩
      exact List.sorted_insertionSort _ _
  · intro hns
    constructor
    · rw [sortedRepos, if_neg hns, categoryRepos, List.filterMap_reverse]
    · rw [unlistedKeys]
      simp only [if_neg hns, List.filter_reverse, List.map_reverse]

/-- Witness for C2 at concrete states in both sort modes. -/
theorem c2_sorting_witness :
    (("l1", "Tools") ∈ stW.star_lists ∧
      (sortedRepos stW "l1").Pairwise (fun a b => b.2.stars ≤ a.2.stars) ∧
      (unlistedKeys stW).Pairwise
        (fun k1 k2 => starsOfKey (flipData stW) k2 ≤ starsOfKey (flipData stW) k1)) ∧
    (("l1", "Tools") ∈ stW2.star_lists ∧
      sortedRepos stW2 "l1" =
        ((pyGetD stW2.star_list_repos "l1" []).reverse).filterMap
          (fun ur => (pyLookup stW2.data (repoKey ur.1 ur.2)).map
            (fun rec => (repoKey ur.1 ur.2, rec))) ∧
      unlistedKeys stW2 =
        (((flipData stW2).reverse).filter (fun kr => !kr.2.listed)).map Prod.fst) := by
  refine ⟨⟨by decide, ?_, ?_⟩, ⟨by decide, ?_, ?_⟩⟩
  · exact ((c2_sorting stW ("l1", "Tools") (by decide)).1 rfl).1
  · exact ((c2_sorting stW ("l1", "Tools") (by decide)).1 rfl).2
  · exact ((c2_sorting stW2 ("l1", "Tools") (by decide)).2 (by decide)).1
  · exact ((c2_sorting stW2 ("l1", "Tools") (by decide)).2 (by decide)).2

/-! ## Partition (C1) -/

theorem pyLookup_isSome_iff {K V : Type} [DecidableEq K] (d : List (K × V)) (k : K) :
    (pyLookup d k).isSome = true ↔ k ∈ d.map Prod.fst := by
  induction d with
  | nil => simp [pyLookup]
  | cons p rest ih =>
    obtain ⟨k1, v1⟩ := p
    by_cases h : k1 = k
    · simp [pyLookup, h]
    · simp [pyLookup, h, ih, Ne.symm h]

theorem mem_categoryRepos_keys (st : StarState) (url k : String)
    (hk : (pyLookup st.data k).isSome = true) :
    k ∈ (categoryRepos st url).map Prod.fst ↔ k ∈ memKeys st url := by
  obtain ⟨r0, hr0⟩ := Option.isSome_iff_exists.mp hk
  simp only [categoryRepos, memKeys, List.mem_map, List.mem_filterMap,
    Option.map_eq_some']
  constructor
  · rintro ⟨p, ⟨ur, hur, rec, _hrec, hp⟩, hpk⟩
    subst hp
    exact ⟨ur, hur, hpk⟩
  · rintro ⟨ur, hur, hkey⟩
    exact ⟨(k, r0), ⟨ur, hur, r0, by rw [hkey]; exact hr0, by rw [hkey]⟩, rfl⟩

theorem mem_sortedRepos_keys (st : StarState) (url k : String)
    (hk : (pyLookup st.data k).isSome = true) :
    k ∈ (sortedRepos st url).map Prod.fst ↔ k ∈ memKeys st url := by
  rw [← mem_categoryRepos_keys st url k hk, sortedRepos]
  by_cases hs : st.sort_by = "stars"
  · rw [if_pos hs]
    exact ((List.perm_insertionSort _ _).map Prod.fst).mem_iff
  · rw [if_neg hs]
    simp

theorem mem_claimedKeys (st : StarState) (k : String)
    (hk : (pyLookup st.data k).isSome = true) :
    k ∈ claimedKeys st ↔ ∃ c ∈ st.star_lists, k ∈ memKeys st c.1 := by
  simp only [claimedKeys, List.mem_flatten, List.mem_map]
  constructor
  · rintro ⟨l, ⟨c, hc, rfl⟩, hkl⟩
    exact ⟨c, hc, (mem_sortedRepos_keys st c.1 k hk).1 hkl⟩
  · rintro ⟨c, hc, hmem⟩
    exact ⟨(sortedRepos st c.1).map Prod.fst, ⟨c, hc, rfl⟩,
      (mem_sortedRepos_keys st c.1 k hk).2 hmem⟩

theorem mem_flipData (st : StarState) (p : String × Repo) :
    p ∈ flipData st ↔ ∃ kr ∈ st.data,
      (kr.1, if kr.1 ∈ claimedKeys st then { kr.2 with listed := true } else kr.2) = p := by
  simp [flipData]

theorem mem_unlistedKeys (st : StarState) (k : String)
    (h1 : ∀ kr ∈ st.data, kr.2.listed = false) :
    k ∈ unlistedKeys st ↔ k ∈ st.data.map Prod.fst ∧ k ∉ claimedKeys st := by
  have base : k ∈ ((flipData st).filter (fun kr => !kr.2.listed)).map Prod.fst ↔
      k ∈ st.data.map Prod.fst ∧ k ∉ claimedKeys st := by
    simp only [List.mem_map, List.mem_filter]
    constructor
    · rintro ⟨p, ⟨hpmem, hpl⟩, hpk⟩
      obtain ⟨kr, hkr, hg⟩ := (mem_flipData st p).1 hpmem
      by_cases hcl : kr.1 ∈ claimedKeys st
      · rw [if_pos hcl] at hg
        rw [← hg] at hpl
        simp at hpl
      · rw [if_neg hcl] at hg
        subst hg
        subst hpk
        exact ⟨⟨kr, hkr, rfl⟩, hcl⟩
    · rintro ⟨hkd, hncl⟩
      obtain ⟨kr, hkr, hkrk⟩ := hkd
      refine ⟨(kr.1, kr.2), ⟨(mem_flipData st _).2 ⟨kr, hkr, ?_⟩, ?_⟩, hkrk⟩
      · rw [if_neg (by rw [hkrk]; exact hncl)]
      · simp [h1 kr hkr]
  rw [unlistedKeys]
  by_cases hs : st.sort_by = "stars"
  · simpa only [if_pos hs, List.mem_insertionSort] using base
  · simpa only [if_neg hs, List.mem_reverse] using base

theorem countP_category_tables (st : StarState) (k : String)
    (hk : (pyLookup st.data k).isSome = true) :
    ∀ cs : List (String × String),
      cs.Pairwise (fun c c2 => ∀ k2, k2 ∈ memKeys st c.1 → k2 ∉ memKeys st c2.1) →
      (cs.map (fun c => (c.2, (sortedRepos st c.1).map Prod.fst))).countP
          (fun t => decide (k ∈ t.2)) =
        if ∃ c ∈ cs, k ∈ memKeys st c.1 then 1 else 0 := by
  intro cs
  induction cs with
  | nil => intro _; simp
  | cons c rest ih =>
    intro hpw
    rw [List.pairwise_cons] at hpw
    obtain ⟨hdisj, hrest⟩ := hpw
    rw [List.map_cons, List.countP_cons, ih hrest]
    by_cases hc : k ∈ memKeys st c.1
    · have hnone : ¬ ∃ c2 ∈ rest, k ∈ memKeys st c2.1 := by
        rintro ⟨c2, hc2, hk2⟩
        exact hdisj c2 hc2 k hc hk2
      have hpk : (decide (k ∈ (sortedRepos st c.1).map Prod.fst)) = true := by
        simp [mem_sortedRepos_keys st c.1 k hk, hc]
      have hex : ∃ c2 ∈ c :: rest, k ∈ memKeys st c2.1 := ⟨c, by simp, hc⟩
      simp [hnone, hpk, hex, hc]
    · have hpk : (decide (k ∈ (sortedRepos st c.1).map Prod.fst)) = false := by
        simp [mem_sortedRepos_keys st c.1 k hk, hc]
      have hiff : (∃ c2 ∈ c :: rest, k ∈ memKeys st c2.1) ↔
          ∃ c2 ∈ rest, k ∈ memKeys st c2.1 := by
        constructor
        · rintro ⟨c2, hc2, hk2⟩
          rcases List.mem_cons.1 hc2 with h | h
          · exact absurd (h ▸ hk2) hc
          · exact ⟨c2, h, hk2⟩
        · rintro ⟨c2, hc2, hk2⟩
          exact ⟨c2, List.mem_cons_of_mem _ hc2, hk2⟩
      rw [hpk]
      by_cases hex : ∃ c2 ∈ rest, k ∈ memKeys st c2.1
      · simp [hex, hiff.2 hex]
      · simp [hex, fun h => hex (hiff.1 h), hc]

/-- **C1** (amended): provided every loaded record is initially
unlisted and the categories' membership lists are pairwise disjoint,
every repository key of the mapping appears in exactly one rendered
table — in a category's table precisely when that (then unique, hence
first) category's membership list contains it, and in the
"Uncategorized Repositories" table precisely when no category's
membership list contains it. -/
theorem c1_partition (st : StarState) (k : String)
    (hk : (pyLookup st.data k).isSome = true)
    (h1 : ∀ kr ∈ st.data, kr.2.listed = false)
    (h2 : st.star_lists.Pairwise
      (fun c c2 => ∀ k2, k2 ∈ memKeys st c.1 → k2 ∉ memKeys st c2.1)) :
    (tables st).countP (fun t => decide (k ∈ t.2)) = 1 ∧
    (∀ c ∈ st.star_lists, (k ∈ (sortedRepos st c.1).map Prod.fst ↔ k ∈ memKeys st c.1)) ∧
    (k ∈ unlistedKeys st ↔ ∀ c ∈ st.star_lists, k ∉ memKeys st c.1) := by
  have hdata : k ∈ st.data.map Prod.fst := (pyLookup_isSome_iff st.data k).1 hk
  refine ⟨?_, fun c _hc => mem_sortedRepos_keys st c.1 k hk, ?_⟩
  · rw [tables, List.countP_append, countP_category_tables st k hk st.star_lists h2]
    by_cases hcl : k ∈ claimedKeys st
    · have hex : ∃ c ∈ st.star_lists, k ∈ memKeys st c.1 := (mem_claimedKeys st k hk).1 hcl
      have hnotun : k ∉ unlistedKeys st := by
        rw [mem_unlistedKeys st k h1]
        rintro ⟨_, hn⟩
        exact hn hcl
      simp [hex, hnotun, List.countP_cons]
    · have hex : ¬ ∃ c ∈ st.star_lists, k ∈ memKeys st c.1 :=
        fun h => hcl ((mem_claimedKeys st k hk).2 h)
      have hun : k ∈ unlistedKeys st := (mem_unlistedKeys st k h1).2 ⟨hdata, hcl⟩
      simp [hex, hun, List.countP_cons]
  · rw [mem_unlistedKeys st k h1]
    constructor
    · rintro ⟨_, hncl⟩ c hc hmem
      exact hncl ((mem_claimedKeys st k hk).2 ⟨c, hc, hmem⟩)
    · intro hall
      refine ⟨hdata, fun hcl => ?_⟩
      obtain ⟨c, hc, hmem⟩ := (mem_claimedKeys st k hk).1 hcl
      exact hall c hc hmem

/-- Witness for C1 at a concrete state: `a/b` is claimed by the single
category, `c/d` is uncategorized. -/
theorem c1_partition_witness :
    ((pyLookup stW.data "a/b").isSome = true ∧
      (∀ kr ∈ stW.data, kr.2.listed = false) ∧
      stW.star_lists.Pairwise
        (fun c c2 => ∀ k2, k2 ∈ memKeys stW c.1 → k2 ∉ memKeys stW c2.1)) ∧
    ((tables stW).countP (fun t => decide ("a/b" ∈ t.2)) = 1 ∧
      (∀ c ∈ stW.star_lists,
        ("a/b" ∈ (sortedRepos stW c.1).map Prod.fst ↔ "a/b" ∈ memKeys stW c.1)) ∧
      ("a/b" ∈ unlistedKeys stW ↔ ∀ c ∈ stW.star_lists, "a/b" ∉ memKeys stW c.1)) :=
  ⟨⟨by decide, by decide, by decide⟩,
   c1_partition stW "a/b" (by decide) (by decide) (by decide)⟩

/-- **C1 counterexample**: when two categories' membership lists share
the repository `a/b` (which starts unlisted), its key is emitted in two
rendered tables, not exactly one — the `listed` flag never stops later
category tables, only the uncategorized one. -/
theorem c1_partition_counterexample :
    (pyLookup stC1cex.data "a/b").isSome = true ∧
      (∀ kr ∈ stC1cex.data, kr.2.listed = false) ∧
      (tables stC1cex).countP (fun t => decide ("a/b" ∈ t.2)) = 2 := by
  refine ⟨by decide, by decide, by decide⟩

/-! ## Idempotence (C6) -/

theorem pyLookup_map_flip (C : List String) (l : List (String × Repo)) (k : String) :
    pyLookup (l.map (fun kr =>
        (kr.1, if kr.1 ∈ C then { kr.2 with listed := true } else kr.2))) k =
      (pyLookup l k).map (fun r => if k ∈ C then { r with listed := true } else r) := by
  induction l with
  | nil => simp [pyLookup]
  | cons p rest ih =>
    obtain ⟨k1, v1⟩ := p
    by_cases hk : k1 = k
    · subst hk
      simp [pyLookup]
    · simp [pyLookup, hk, ih]

theorem pyLookup_flipData (st : StarState) (k : String) :
    pyLookup (flipData st) k =
      (pyLookup st.data k).map
        (fun r => if k ∈ claimedKeys st then { r with listed := true } else r) :=
  pyLookup_map_flip (claimedKeys st) st.data k

theorem categoryRepos_flip (st : StarState) (url : String) :
    categoryRepos { st with data := flipData st } url =
      (categoryRepos st url).map (fun kr =>
        (kr.1, if kr.1 ∈ claimedKeys st then { kr.2 with listed := true } else kr.2)) := by
  rw [categoryRepos, categoryRepos, List.map_filterMap]
  have harg : ({ st with data := flipData st } : StarState).star_list_repos =
      st.star_list_repos := rfl
  rw [harg]
  congr 1
  funext ur
  rw [pyLookup_flipData]
  cases h : pyLookup st.data (repoKey ur.1 ur.2) with
  | none => rfl
  | some r => rfl

theorem sortedRepos_flip (st : StarState) (url : String) :
    sortedRepos { st with data := flipData st } url =
      (sortedRepos st url).map (fun kr =>
        (kr.1, if kr.1 ∈ claimedKeys st then { kr.2 with listed := true } else kr.2)) := by
  rw [sortedRepos, sortedRepos]
  have hsort : ({ st with data := flipData st } : StarState).sort_by = st.sort_by := rfl
  rw [hsort, categoryRepos_flip]
  by_cases hs : st.sort_by = "stars"
  · rw [if_pos hs, if_pos hs]
    refine (List.map_insertionSort _ _ _ _ ?_).symm
    intro a _ b _
    by_cases ha : a.1 ∈ claimedKeys st
    · by_cases hb : b.1 ∈ claimedKeys st
      · simp [ha, hb]
      · simp [ha, hb]
    · by_cases hb : b.1 ∈ claimedKeys st
      · simp [ha, hb]
      · simp [ha, hb]
  · rw [if_neg hs, if_neg hs, List.map_reverse]

theorem claimedKeys_flip (st : StarState) :
    claimedKeys { st with data := flipData st } = claimedKeys st := by
  rw [claimedKeys, claimedKeys]
  have harg : ({ st with data := flipData st } : StarState).star_lists = st.star_lists := rfl
  rw [harg]
  congr 1
  apply List.map_congr_left
  intro c _
  rw [sortedRepos_flip, List.map_map]
  apply List.map_congr_left
  intro kr _
  rfl

theorem flipData_flip (st : StarState) :
    flipData { st with data := flipData st } = flipData st := by
  conv_lhs => rw [flipData]
  simp only [claimedKeys_flip]
  rw [flipData, List.map_map]
  apply List.map_congr_left
  intro kr _
  by_cases hm : kr.1 ∈ claimedKeys st
  · simp [hm]
  · simp [hm]

theorem categoryText_flip (st : StarState) (c : String × String) :
    categoryText { st with data := flipData st } c = categoryText st c := by
  rw [categoryText, categoryText, sortedRepos_flip, List.map_map]
  have hrows : ((sortedRepos st c.1).map
      ((fun kr : String × Repo => rowText kr.1 kr.2.description kr.2.stars) ∘
        (fun kr => (kr.1, if kr.1 ∈ claimedKeys st then { kr.2 with listed := true } else kr.2)))) =
      (sortedRepos st c.1).map (fun kr => rowText kr.1 kr.2.description kr.2.stars) := by
    apply List.map_congr_left
    intro kr _
    by_cases hm : kr.1 ∈ claimedKeys st
    · simp [hm, Function.comp]
    · simp [hm, Function.comp]
  rw [hrows]

theorem unlistedKeys_flip (st : StarState) :
    unlistedKeys { st with data := flipData st } = unlistedKeys st := by
  rw [unlistedKeys, unlistedKeys]
  simp only [flipData_flip]

theorem uncategorizedText_flip (st : StarState) :
    uncategorizedText { st with data := flipData st } = uncategorizedText st := by
  rw [uncategorizedText, uncategorizedText]
  simp only [flipData_flip, unlistedKeys_flip]

/-- **C6**: running `generate_readme` twice in succession on the same
in-memory state — the second run seeing the `listed` flips left behind
by the first — writes byte-identical document text both times. -/
theorem c6_render_idempotent (st : StarState) (template : String) :
    (generate_readme ((generate_readme st template).2) template).1 =
      (generate_readme st template).1 := by
  have hstate : (generate_readme st template).2 = { st with data := flipData st } := rfl
  rw [hstate, generate_readme, generate_readme]
  have htext : generate_text { st with data := flipData st } = generate_text st := by
    rw [generate_text, generate_text]
    have harg : ({ st with data := flipData st } : StarState).star_lists =
        st.star_lists := rfl
    simp only [harg, uncategorizedText_flip]
    have hcat : (st.star_lists.map (fun c => categoryText { st with data := flipData st } c)) =
        st.star_lists.map (fun c => categoryText st c) :=
      List.map_congr_left (fun c _ => categoryText_flip st c)
    have hsec : sectionsOf { st with data := flipData st } = sectionsOf st := rfl
    rw [hcat, hsec]
  rw [htext]

/-! ## Template substitution (C8) -/

theorem replaceAllAux_of_count_zero (o : Char) (os newc : List Char) :
    ∀ (fuel : Nat) (l : List Char), l.length ≤ fuel →
      countOccAux o os fuel l = 0 → replaceAllAux o os newc fuel l = l := by
  intro fuel
  induction fuel with
  | zero =>
    intro l hl _
    cases l with
    | nil => rfl
    | cons c rest => simp at hl
  | succ fuel ih =>
    intro l hl hcount
    cases l with
    | nil => rfl
    | cons c rest =>
      by_cases hp : (o :: os).isPrefixOf (c :: rest) = true
      · simp [countOccAux, hp] at hcount
      · have h2 : countOccAux o os fuel rest = 0 := by
          simpa [countOccAux, hp] using hcount
        have hlen : rest.length ≤ fuel := by
          simp only [List.length_cons] at hl
          omega
        simp [replaceAllAux, hp, ih rest hlen h2]

theorem replaceAllAux_single (o : Char) (os newc : List Char) :
    ∀ (fuel : Nat) (l : List Char), l.length ≤ fuel →
      countOccAux o os fuel l = 1 →
      ∃ a b : List Char, l = a ++ (o :: os) ++ b ∧
        replaceAllAux o os newc fuel l = a ++ newc ++ b := by
  intro fuel
  induction fuel with
  | zero =>
    intro l hl hc
    cases l with
    | nil => simp [countOccAux] at hc
    | cons c rest => simp at hl
  | succ fuel ih =>
    intro l hl hc
    cases l with
    | nil => simp [countOccAux] at hc
    | cons c rest =>
      have hlrest : rest.length ≤ fuel := by
        simp only [List.length_cons] at hl
        omega
      by_cases hp : (o :: os).isPrefixOf (c :: rest) = true
      · have hc0 : countOccAux o os fuel (rest.drop os.length) = 0 := by
          simp only [countOccAux, if_pos hp] at hc
          omega
        obtain ⟨t, ht⟩ := List.isPrefixOf_iff_prefix.mp hp
        have hdrop : rest.drop os.length = t := by
          have h2 := congrArg (List.drop (os.length + 1)) ht
          rw [List.drop_left' (by simp)] at h2
          simpa [List.drop_succ_cons] using h2.symm
        have hlen2 : (rest.drop os.length).length ≤ fuel := by
          have := List.length_drop os.length rest
          omega
        refine ⟨[], t, by simpa using ht.symm, ?_⟩
        have hrest0 : replaceAllAux o os newc fuel (rest.drop os.length) =
            rest.drop os.length :=
          replaceAllAux_of_count_zero o os newc fuel _ hlen2 hc0
        rw [hdrop] at hrest0
        simp [replaceAllAux, hp, hrest0, hdrop]
      · have hc1 : countOccAux o os fuel rest = 1 := by
          simpa [countOccAux, hp] using hc
        obtain ⟨a, b, hsplit, hrepl⟩ := ih rest hlrest hc1
        refine ⟨c :: a, b, by simp [hsplit], ?_⟩
        simp [replaceAllAux, hp, hrepl]

theorem py_replace_single (s pat new : String) (o : Char) (os : List Char)
    (hpat : pat.data = o :: os) (h : py_count s pat = 1) :
    ∃ a b : String, s = a ++ pat ++ b ∧ py_replace s pat new = a ++ new ++ b := by
  have hcount : countOccAux o os s.data.length s.data = 1 := by
    simpa only [py_count, hpat] using h
  obtain ⟨a, b, hsplit, hrepl⟩ :=
    replaceAllAux_single o os new.data s.data.length s.data (Nat.le_refl _) hcount
  refine ⟨⟨a⟩, ⟨b⟩, ?_, ?_⟩
  · apply String.ext
    simp only [String.data_append]
    rw [hpat]
    exact hsplit
  · apply String.ext
    have hr : (py_replace s pat new).data = replaceAllAux o os new.data s.data.length s.data := by
      simp only [py_replace, hpat]
    rw [hr, hrepl]
    simp [String.data_append]

theorem generate_text_head (st : StarState) :
    ∃ r : String, generate_text st = "## TOC" ++ r := by
  have hne : ("Uncategorized Repositories" : String) ∈
      (sectionsOf st).filter (fun s => s != "") := by
    simp [sectionsOf]
  have hcl : (sectionsOf st).filter (fun s => s != "") ≠ [] := by
    intro h0
    rw [h0] at hne
    exact absurd hne (List.not_mem_nil _)
  have htoc : build_toc (sectionsOf st) =
      join_nl (["## TOC", ""] ++
        (toc_entries ((sectionsOf st).filter (fun s => s != ""))).map
          (fun e => "- [" ++ e.1 ++ "](#" ++ e.2 ++ ")") ++ [""]) := by
    simp only [build_toc]
    rw [if_neg hcl]
  have hjoin : ∀ L : List String, join_nl ("## TOC" :: "" :: L) =
      "## TOC" ++ ("\n" ++ join_nl ("" :: L)) := fun L => rfl
  have hlist : (["## TOC", ""] ++
      (toc_entries ((sectionsOf st).filter (fun s => s != ""))).map
        (fun e => "- [" ++ e.1 ++ "](#" ++ e.2 ++ ")") ++ [""]) =
      "## TOC" :: "" ::
        ((toc_entries ((sectionsOf st).filter (fun s => s != ""))).map
          (fun e => "- [" ++ e.1 ++ "](#" ++ e.2 ++ ")") ++ [""]) := rfl
  rw [hlist, hjoin] at htoc
  have htocne : build_toc (sectionsOf st) ≠ "" := by
    rw [htoc]
    intro hbad
    have := congrArg String.data hbad
    simp [String.data_append] at this
  rw [generate_text]
  rw [if_neg htocne, htoc, String.append_assoc]
  exact ⟨_, rfl⟩

theorem pyStrip_of_head_toc (s r : String) (hs : s = "## TOC" ++ r) :
    pyStrip s = pyRStrip s := by
  have hd : s.data = '#' :: ("# TOC" ++ r).data := by
    rw [hs]
    rfl
  have hls : pyLStrip s = s := by
    apply String.ext
    show s.data.dropWhile isPySpace = s.data
    rw [hd, List.dropWhile_cons]
    simp [isPySpace]
  rw [pyStrip, hls]

/-- **C8**: for any template containing exactly one occurrence of the
placeholder token `[[GENERATE HERE]]`, the written output is the
template with the token replaced by the generated content stripped of
trailing whitespace, and the rest of the template unchanged.  (The code
calls `str.strip()`, but the generated content always starts with
`## TOC`, so only trailing whitespace is actually removed.) -/
theorem c8_template_substitution (st : StarState) (tpl : String)
    (h : py_count tpl "[[GENERATE HERE]]" = 1) :
    ∃ a b : String, tpl = a ++ "[[GENERATE HERE]]" ++ b ∧
      (generate_readme st tpl).1 = a ++ pyStrip (generate_text st) ++ b ∧
      pyStrip (generate_text st) = pyRStrip (generate_text st) := by
  obtain ⟨rr, hrr⟩ := generate_text_head st
  have hstrip : pyStrip (generate_text st) = pyRStrip (generate_text st) :=
    pyStrip_of_head_toc _ rr hrr
  obtain ⟨a, b, hsplit, hrepl⟩ := py_replace_single tpl "[[GENERATE HERE]]"
    (pyStrip (generate_text st)) '[' ("[GENERATE HERE]]".data) rfl h
  exact ⟨a, b, hsplit, hrepl, hstrip⟩

/-- Witness for C8 at a concrete template and state. -/
theorem c8_template_substitution_witness :
    py_count tplW "[[GENERATE HERE]]" = 1 ∧
      (∃ a b : String, tplW = a ++ "[[GENERATE HERE]]" ++ b ∧
        (generate_readme stW tplW).1 = a ++ pyStrip (generate_text stW) ++ b ∧
        pyStrip (generate_text stW) = pyRStrip (generate_text stW)) :=
  ⟨by decide, c8_template_substitution stW tplW (by decide)⟩
